import Mathlib

/-!
# OKR tracker engine — shallow embedding and verification

This file embeds the state/computation engine of the OKR tracker
(`src/app.js`, extended generation) in Lean 4 and settles the claims of
the specification against it.

Modelling conventions:
* JavaScript numbers are modelled by `JSNum` (a rational, `+Infinity`,
  `-Infinity`, or `NaN`) where the code can divide by zero, and by plain
  `ℚ` / `ℤ` where the code only ever adds, compares and clamps.
  Negative zero is not distinguished from zero (the embedded code never
  observes the difference).
* In-place mutation of the single global `data` object is modelled by
  explicit state passing over `AppData`.
* The impure identifier/clock calls (`generateId()`, `new Date()`) are
  modelled by explicit string parameters threaded into each operation.
* JS iteration over an object keyed by id is modelled by an association
  list in insertion order.
* For `updated` history entries the `changes` payload records the names
  of the changed fields (the per-field `{from, to}` values are projected
  away; no claim inspects them).
-/

/-- A JavaScript number: a finite rational, an infinity, or `NaN`. -/
inductive JSNum where
  | num (q : ℚ)
  | posInf
  | negInf
  | nan
deriving DecidableEq, Repr

namespace JSNum

/-- JavaScript addition (`+`) on numbers. -/
def jsAdd : JSNum → JSNum → JSNum
  | nan, _ => nan
  | _, nan => nan
  | posInf, negInf => nan
  | negInf, posInf => nan
  | posInf, _ => posInf
  | _, posInf => posInf
  | negInf, _ => negInf
  | _, negInf => negInf
  | num a, num b => num (a + b)

/-- JavaScript multiplication (`*`) on numbers. -/
def jsMul : JSNum → JSNum → JSNum
  | nan, _ => nan
  | _, nan => nan
  | num a, num b => num (a * b)
  | posInf, num b => if b = 0 then nan else if 0 < b then posInf else negInf
  | num a, posInf => if a = 0 then nan else if 0 < a then posInf else negInf
  | negInf, num b => if b = 0 then nan else if 0 < b then negInf else posInf
  | num a, negInf => if a = 0 then nan else if 0 < a then negInf else posInf
  | posInf, posInf => posInf
  | posInf, negInf => negInf
  | negInf, posInf => negInf
  | negInf, negInf => posInf

/-- JavaScript division (`/`) on numbers: division by zero produces an
infinity (or `NaN` for `0/0`), matching IEEE-754 / ECMAScript. -/
def jsDiv : JSNum → JSNum → JSNum
  | nan, _ => nan
  | _, nan => nan
  | num a, num b =>
      if b = 0 then (if a = 0 then nan else if 0 < a then posInf else negInf)
      else num (a / b)
  | num _, posInf => num 0
  | num _, negInf => num 0
  | posInf, num b => if 0 ≤ b then posInf else negInf
  | negInf, num b => if 0 ≤ b then negInf else posInf
  | posInf, posInf => nan
  | posInf, negInf => nan
  | negInf, posInf => nan
  | negInf, negInf => nan

/-- JavaScript `Math.round`: half-way cases round toward `+∞`
(`Rat.floor` is `⌊·⌋` on `ℚ`, kept in its computable form). -/
def jsRound : JSNum → JSNum
  | num q => num (((q + 1/2).floor : ℤ) : ℚ)
  | posInf => posInf
  | negInf => negInf
  | nan => nan

/-- JavaScript `Math.min` (propagates `NaN`). -/
def jsMin : JSNum → JSNum → JSNum
  | nan, _ => nan
  | _, nan => nan
  | num a, num b => num (min a b)
  | negInf, _ => negInf
  | _, negInf => negInf
  | posInf, b => b
  | a, posInf => a

end JSNum

open JSNum

/-- A Key Result (`keyResults` array element in `app.js`). -/
structure KeyResult where
  id : String
  title : String
  target : ℚ
  current : ℚ
  startDate : String
  targetDate : String
  weight : ℤ
  status : String
  confidence : String
  lastCheckin : String
  evidence : String
  comments : String
  createdAt : String
deriving DecidableEq, Repr

/-- An Objective (`data.objectives` array element in `app.js`). -/
structure Objective where
  id : String
  group : Option String
  year : ℤ
  quarter : String
  title : String
  purpose : String
  startDate : String
  targetDate : String
  weight : ℤ
  lastCheckin : String
  keyResults : List KeyResult
  createdAt : String
deriving DecidableEq, Repr

/-- Captured per-Key-Result snapshot payload
(`snapshot.objectives[id].keyResults[krId]` in `recordProgressSnapshot`). -/
structure KRSnap where
  title : String
  progress : JSNum
  current : ℚ
  target : ℚ
deriving DecidableEq, Repr

/-- Captured per-Objective snapshot payload (`snapshot.objectives[id]`). -/
structure ObjSnap where
  title : String
  group : String
  progress : JSNum
  keyResults : List (String × KRSnap)
deriving DecidableEq, Repr

/-- The full `snapshot` object built by `recordProgressSnapshot`. -/
structure Snapshot where
  timestamp : String
  objectives : List (String × ObjSnap)
deriving DecidableEq, Repr

/-- The `changes` payload of a history entry. -/
inductive ChangeSet where
  | created
  | deleted
  | updated (fields : List String)
  | progress (fromCurrent toCurrent target : ℚ) (fromPct toPct : JSNum) (delta : ℚ)
  | snapshot (snap : Snapshot)
deriving DecidableEq, Repr

/-- A history entry (`data.history` array element). -/
structure HistoryEntry where
  id : String
  timestamp : String
  type : String
  itemType : String
  itemId : String
  itemTitle : String
  changes : ChangeSet
  group : Option String
deriving DecidableEq, Repr

/-- The root `data` object: objectives plus history. -/
structure AppData where
  objectives : List Objective
  history : List HistoryEntry
deriving DecidableEq, Repr

/-! ## Progress Calculator (`calculateProgress`, `app.js:1166`) -/

/-- The per-Key-Result percentage
`Math.min(100, Math.round((kr.current / kr.target) * 100))` computed at
`app.js:1197`, `app.js:1811` and `app.js:1813`. -/
def krProgress (current target : ℚ) : JSNum :=
  jsMin (num 100) (jsRound (jsMul (jsDiv (num current) (num target)) (num 100)))

/-- `calculateProgress(objective)` (`app.js:1166-1174`): 0 with no key
results, otherwise `Math.min(100, Math.round(total / n))` where `total`
sums the raw `(kr.current / kr.target) * 100` ratios. -/
def calculateProgress (objective : Objective) : JSNum :=
  if objective.keyResults.length = 0 then num 0
  else
    let total := objective.keyResults.foldl
      (fun sum kr => jsAdd sum (jsMul (jsDiv (num kr.current) (num kr.target)) (num 100)))
      (num 0)
    jsMin (num 100) (jsRound (jsDiv total (num objective.keyResults.length)))

/-! ## History/Audit Log (`addHistoryEntry`, `app.js:1419-1441`) -/

/-- `addHistoryEntry(type, itemType, itemId, itemTitle, changes, group)`:
builds the entry (its fresh id and timestamp are passed in explicitly),
unshifts it onto the front of the history and truncates to 1000. -/
def addHistoryEntry (history : List HistoryEntry) (newId timestamp : String)
    (type itemType itemId itemTitle : String) (changes : ChangeSet)
    (group : Option String) : List HistoryEntry :=
  let history :=
    { id := newId, timestamp := timestamp, type := type, itemType := itemType,
      itemId := itemId, itemTitle := itemTitle, changes := changes,
      group := group : HistoryEntry } :: history
  if history.length > 1000 then history.take 1000 else history

/-! ## Snapshot Recorder (`recordProgressSnapshot`, `app.js:1177-1216`) -/

/-- One captured key result inside a snapshot. -/
def krSnapOf (kr : KeyResult) : String × KRSnap :=
  (kr.id, { title := kr.title, progress := krProgress kr.current kr.target,
            current := kr.current, target := kr.target })

/-- One captured objective inside a snapshot (`obj.group || 'Personal'`). -/
def objSnapOf (obj : Objective) : String × ObjSnap :=
  (obj.id, { title := obj.title, group := obj.group.getD "Personal",
             progress := calculateProgress obj,
             keyResults := obj.keyResults.map krSnapOf })

/-- `recordProgressSnapshot()`: no-op when there are no objectives,
otherwise appends one `progress-snapshot` entry
(`addHistoryEntry('progress-snapshot', 'system', 'all',
'Progress Snapshot', { snapshot }, null)`). -/
def recordProgressSnapshot (d : AppData) (entryId timestamp : String) : AppData :=
  if d.objectives.length = 0 then d
  else
    let snap : Snapshot :=
      { timestamp := timestamp, objectives := d.objectives.map objSnapOf }
    { d with
        history := addHistoryEntry d.history entryId timestamp
          "progress-snapshot" "system" "all" "Progress Snapshot"
          (ChangeSet.snapshot snap) none }

/-! ## Weight Balancer (`app.js:1510-1573`) -/

/-- Indexed in-place update, modelling
`list.forEach((x, index) => { x.f = g(index) })`. -/
def assignIdxFrom {α : Type} (f : Nat → α → α) : Nat → List α → List α
  | _, [] => []
  | i, x :: xs => f i x :: assignIdxFrom f (i + 1) xs

/-- Indexed in-place update of the non-edited elements only, modelling
`others.forEach((x, index) => ...)` where `others` aliases the filtered
elements of the original array. -/
def assignOtherIdxFrom {α : Type} (isEdited : α → Bool) (f : Nat → α → α) :
    Nat → List α → List α
  | _, [] => []
  | i, x :: xs =>
      if isEdited x then x :: assignOtherIdxFrom isEdited f i xs
      else f i x :: assignOtherIdxFrom isEdited f (i + 1) xs

/-- In-place update of the first element satisfying `p`, modelling a
mutation through the alias returned by `Array.prototype.find`. -/
def updateFirst {α : Type} (p : α → Bool) (f : α → α) : List α → List α
  | [] => []
  | x :: xs => if p x then f x :: xs else x :: updateFirst p f xs

/-- The weight written to the sibling at position `index`:
`equalWeight + (index < remainder ? 1 : 0)`. -/
def setObjWeight (equalWeight remainder : ℤ) (index : Nat) (obj : Objective) :
    Objective :=
  { obj with weight := equalWeight + (if (index : ℤ) < remainder then 1 else 0) }

/-- The same weight assignment for a key result. -/
def setKRWeight (equalWeight remainder : ℤ) (index : Nat) (kr : KeyResult) :
    KeyResult :=
  { kr with weight := equalWeight + (if (index : ℤ) < remainder then 1 else 0) }

/-- `autoBalanceObjectiveWeights()` (`app.js:1510-1518`). -/
def autoBalanceObjectiveWeights (objectives : List Objective) : List Objective :=
  if objectives.length = 0 then objectives
  else
    let equalWeight : ℤ := Int.fdiv 100 objectives.length
    let remainder : ℤ := 100 - equalWeight * objectives.length
    assignIdxFrom (setObjWeight equalWeight remainder) 0 objectives

/-- `balanceOtherObjectives(editedId, manualWeight)` (`app.js:1521-1535`). -/
def balanceOtherObjectives (objectives : List Objective) (editedId : String)
    (manualWeight : ℤ) : List Objective :=
  if objectives.length ≤ 1 then objectives
  else
    let remainingWeight : ℤ := 100 - manualWeight
    let others := objectives.filter (fun o => o.id ≠ editedId)
    if others.length = 0 then objectives
    else
      let equalWeight : ℤ := Int.fdiv remainingWeight others.length
      let remainder : ℤ := remainingWeight - equalWeight * others.length
      assignOtherIdxFrom (fun o => o.id = editedId)
        (setObjWeight equalWeight remainder) 0 objectives

/-- `autoBalanceKRWeights(objectiveId)` (`app.js:1545-1555`). -/
def autoBalanceKRWeights (objectives : List Objective) (objectiveId : String) :
    List Objective :=
  match objectives.find? (fun o => o.id = objectiveId) with
  | none => objectives
  | some obj =>
      if obj.keyResults.length = 0 then objectives
      else
        let equalWeight : ℤ := Int.fdiv 100 obj.keyResults.length
        let remainder : ℤ := 100 - equalWeight * obj.keyResults.length
        updateFirst (fun o => o.id = objectiveId)
          (fun o => { o with keyResults :=
            (assignIdxFrom (setKRWeight equalWeight remainder) 0 o.keyResults) })
          objectives

/-- `balanceOtherKRs(objectiveId, editedKRId, manualWeight)`
(`app.js:1558-1573`). -/
def balanceOtherKRs (objectives : List Objective) (objectiveId editedKRId : String)
    (manualWeight : ℤ) : List Objective :=
  match objectives.find? (fun o => o.id = objectiveId) with
  | none => objectives
  | some obj =>
      if obj.keyResults.length ≤ 1 then objectives
      else
        let remainingWeight : ℤ := 100 - manualWeight
        let others := obj.keyResults.filter (fun kr => kr.id ≠ editedKRId)
        if others.length = 0 then objectives
        else
          let equalWeight : ℤ := Int.fdiv remainingWeight others.length
          let remainder : ℤ := remainingWeight - equalWeight * others.length
          updateFirst (fun o => o.id = objectiveId)
            (fun o => { o with keyResults :=
              (assignOtherIdxFrom (fun kr => kr.id = editedKRId)
                (setKRWeight equalWeight remainder) 0 o.keyResults) })
            objectives

/-! ## Mutating operations (`app.js:1583-1848`) -/

/-- The `formData` object built by the objective form submit handler. -/
structure ObjectiveFormData where
  editId : Option String
  group : String
  year : ℤ
  quarter : String
  title : String
  purpose : String
  startDate : String
  targetDate : String
  weight : ℤ
  lastCheckin : String
deriving DecidableEq, Repr

/-- The names of the objective fields whose old and new values differ,
in the comparison order of `saveObjective` (`app.js:1597-1605`). -/
def objectiveChanges (obj : Objective) (form : ObjectiveFormData) : List String :=
  (if obj.title ≠ form.title then ["title"] else []) ++
  (if obj.group ≠ some form.group then ["group"] else []) ++
  (if obj.year ≠ form.year then ["year"] else []) ++
  (if obj.quarter ≠ form.quarter then ["quarter"] else []) ++
  (if obj.purpose ≠ form.purpose then ["purpose"] else []) ++
  (if obj.startDate ≠ form.startDate then ["startDate"] else []) ++
  (if obj.targetDate ≠ form.targetDate then ["targetDate"] else []) ++
  (if obj.weight ≠ form.weight then ["weight"] else []) ++
  (if obj.lastCheckin ≠ form.lastCheckin then ["lastCheckin"] else [])

/-- The field assignments of the edit branch of `saveObjective`
(`app.js:1607-1615`). -/
def applyObjectiveForm (form : ObjectiveFormData) (o : Objective) : Objective :=
  { o with group := some form.group, year := form.year, quarter := form.quarter,
           title := form.title, purpose := form.purpose,
           startDate := form.startDate, targetDate := form.targetDate,
           weight := form.weight, lastCheckin := form.lastCheckin }

/-- `saveObjective(formData)` (`app.js:1583-1658`), excluding the
persistence/render calls.  `newId` models `generateId()` for the add
branch; `entryId`/`entryTs` the fresh id and timestamp of the
created/updated history entry; `snapId`/`snapTs` those of the snapshot
entry; `today` the `YYYY-MM-DD` creation date. -/
def saveObjective (d : AppData) (form : ObjectiveFormData)
    (newId entryId entryTs snapId snapTs today : String) : AppData :=
  let d1 :=
    match form.editId with
    | some editId =>
        match d.objectives.find? (fun o => o.id = editId) with
        | none => d
        | some obj =>
            let changes := objectiveChanges obj form
            let objs1 := updateFirst (fun o => o.id = editId)
              (applyObjectiveForm form) d.objectives
            let hist1 :=
              if changes.length > 0 then
                addHistoryEntry d.history entryId entryTs "updated" "objective"
                  editId form.title (ChangeSet.updated changes) (some form.group)
              else d.history
            let objs2 :=
              if obj.weight ≠ form.weight then
                balanceOtherObjectives objs1 editId form.weight
              else objs1
            { objectives := objs2, history := hist1 }
    | none =>
        let newObj : Objective :=
          { id := newId, group := some form.group, year := form.year,
            quarter := form.quarter, title := form.title,
            purpose := form.purpose, startDate := form.startDate,
            targetDate := form.targetDate, weight := 0,
            lastCheckin := form.lastCheckin, keyResults := [],
            createdAt := today }
        let objs1 := autoBalanceObjectiveWeights (d.objectives ++ [newObj])
        let hist1 := addHistoryEntry d.history entryId entryTs "created"
          "objective" newId form.title ChangeSet.created (some form.group)
        { objectives := objs1, history := hist1 }
  recordProgressSnapshot d1 snapId snapTs

/-- `deleteObjective(id)` (`app.js:1661-1673`), with the confirmation
dialog assumed accepted. -/
def deleteObjective (d : AppData) (id : String)
    (entryId entryTs snapId snapTs : String) : AppData :=
  let hist1 :=
    match d.objectives.find? (fun o => o.id = id) with
    | some obj =>
        addHistoryEntry d.history entryId entryTs "deleted" "objective" id
          obj.title ChangeSet.deleted obj.group
    | none => d.history
  let objs1 := d.objectives.filter (fun o => o.id ≠ id)
  recordProgressSnapshot { objectives := objs1, history := hist1 } snapId snapTs

/-- The names of the key-result fields whose old and new values differ,
in the comparison order of `saveKeyResult` (`app.js:1739-1748`).
`target` and `weight` are the already-parsed integers. -/
def krChanges (kr : KeyResult) (title : String) (target : ℤ)
    (startDate targetDate : String) (weight : ℤ)
    (status confidence lastCheckin evidence comments : String) : List String :=
  (if kr.title ≠ title then ["title"] else []) ++
  (if kr.status ≠ status then ["status"] else []) ++
  (if kr.confidence ≠ confidence then ["confidence"] else []) ++
  (if kr.target ≠ (target : ℚ) then ["target"] else []) ++
  (if kr.startDate ≠ startDate then ["startDate"] else []) ++
  (if kr.targetDate ≠ targetDate then ["targetDate"] else []) ++
  (if kr.weight ≠ weight then ["weight"] else []) ++
  (if kr.lastCheckin ≠ lastCheckin then ["lastCheckin"] else []) ++
  (if kr.evidence ≠ evidence then ["evidence"] else []) ++
  (if kr.comments ≠ comments then ["comments"] else [])

/-- The field assignments of the edit branch of `saveKeyResult`
(`app.js:1750-1761`); `kr.current = Math.min(kr.current, parseInt(target))`. -/
def applyKRForm (title : String) (target : ℤ) (startDate targetDate : String)
    (weight : ℤ) (status confidence lastCheckin evidence comments : String)
    (k : KeyResult) : KeyResult :=
  { k with title := title, target := (target : ℚ),
           current := min k.current (target : ℚ),
           startDate := startDate, targetDate := targetDate, weight := weight,
           status := status, confidence := confidence,
           lastCheckin := lastCheckin, evidence := evidence,
           comments := comments }

/-- `saveKeyResult(objectiveId, title, target, ..., editId)`
(`app.js:1726-1802`), excluding the persistence/render calls.  `target`
and `weight` are the values after `parseInt`. -/
def saveKeyResult (d : AppData) (objectiveId title : String) (target : ℤ)
    (startDate targetDate : String) (weight : ℤ)
    (status confidence lastCheckin evidence comments : String)
    (editId : Option String)
    (newKrId entryId entryTs snapId snapTs today : String) : AppData :=
  match d.objectives.find? (fun o => o.id = objectiveId) with
  | none => d
  | some objective =>
      let d1 :=
        match editId with
        | some eid =>
            match objective.keyResults.find? (fun k => k.id = eid) with
            | none => d
            | some kr =>
                let changes := krChanges kr title target startDate targetDate
                  weight status confidence lastCheckin evidence comments
                let objs1 := updateFirst (fun o => o.id = objectiveId)
                  (fun o => { o with keyResults :=
                    (updateFirst (fun k => k.id = eid)
                      (applyKRForm title target startDate targetDate weight
                        status confidence lastCheckin evidence comments)
                      o.keyResults) })
                  d.objectives
                let hist1 :=
                  if changes.length > 0 then
                    addHistoryEntry d.history entryId entryTs "updated"
                      "keyresult" eid title (ChangeSet.updated changes)
                      objective.group
                  else d.history
                let objs2 :=
                  if kr.weight ≠ weight then
                    balanceOtherKRs objs1 objectiveId eid weight
                  else objs1
                { objectives := objs2, history := hist1 }
        | none =>
            let newKR : KeyResult :=
              { id := newKrId, title := title, target := (target : ℚ),
                current := 0, startDate := startDate, targetDate := targetDate,
                weight := 0, status := status, confidence := confidence,
                lastCheckin := lastCheckin, evidence := evidence,
                comments := comments, createdAt := today }
            let objs1 := updateFirst (fun o => o.id = objectiveId)
              (fun o => { o with keyResults := o.keyResults ++ [newKR] })
              d.objectives
            let objs2 := autoBalanceKRWeights objs1 objectiveId
            let hist1 := addHistoryEntry d.history entryId entryTs "created"
              "keyresult" newKrId title ChangeSet.created objective.group
            { objectives := objs2, history := hist1 }
      recordProgressSnapshot d1 snapId snapTs

/-- `updateKR(objectiveId, krId, delta)` (`app.js:1805-1831`), excluding
the persistence/render calls. -/
def updateKR (d : AppData) (objectiveId krId : String) (delta : ℚ)
    (entryId entryTs snapId snapTs : String) : AppData :=
  match d.objectives.find? (fun o => o.id = objectiveId) with
  | none => d
  | some objective =>
      match objective.keyResults.find? (fun k => k.id = krId) with
      | none => d
      | some kr =>
          let oldCurrent := kr.current
          let oldProgress := krProgress oldCurrent kr.target
          let newCurrent := max 0 (min kr.target (kr.current + delta))
          let newProgress := krProgress newCurrent kr.target
          let objs1 := updateFirst (fun o => o.id = objectiveId)
            (fun o => { o with keyResults :=
              (updateFirst (fun k => k.id = krId)
                (fun k => { k with current := newCurrent }) o.keyResults) })
            d.objectives
          let hist1 :=
            if oldCurrent ≠ newCurrent then
              addHistoryEntry d.history entryId entryTs "progress" "keyresult"
                krId kr.title
                (ChangeSet.progress oldCurrent newCurrent kr.target
                  oldProgress newProgress delta)
                objective.group
            else d.history
          recordProgressSnapshot { objectives := objs1, history := hist1 }
            snapId snapTs

/-- `deleteKR(objectiveId, krId)` (`app.js:1834-1848`). -/
def deleteKR (d : AppData) (objectiveId krId : String)
    (entryId entryTs snapId snapTs : String) : AppData :=
  match d.objectives.find? (fun o => o.id = objectiveId) with
  | none => d
  | some objective =>
      let hist1 :=
        match objective.keyResults.find? (fun k => k.id = krId) with
        | some kr =>
            addHistoryEntry d.history entryId entryTs "deleted" "keyresult"
              krId kr.title ChangeSet.deleted objective.group
        | none => d.history
      let objs1 := updateFirst (fun o => o.id = objectiveId)
        (fun o => { o with keyResults :=
          (o.keyResults.filter (fun k => k.id ≠ krId)) })
        d.objectives
      recordProgressSnapshot { objectives := objs1, history := hist1 }
        snapId snapTs

/-! ## Specification-side definitions (for refinement comparisons)

These two functions follow the words of the specification (§4.1), not
the source; they exist only to be compared with `calculateProgress`. -/

/-- The claim's per-key-result formula
`clamp(round(current / target * 100), 0, 100)`, over exact rationals. -/
def specKeyResultProgress (kr : KeyResult) : ℤ :=
  max 0 (min 100 (kr.current / kr.target * 100 + 1/2).floor)

/-- The claim's objective formula: the arithmetic mean of the
per-key-result progresses, rounded to nearest, capped at 100; 0 with no
key results. -/
def specObjectiveProgress (obj : Objective) : ℤ :=
  if obj.keyResults.length = 0 then 0
  else
    min 100
      (((obj.keyResults.map fun kr => (specKeyResultProgress kr : ℚ)).sum
          / obj.keyResults.length : ℚ) + 1/2).floor

/-- The mean of the raw ratio percentages, rounded once and capped at
100 — the formula `calculateProgress` actually computes on key results
with nonzero targets. -/
def rawMeanObjectiveProgress (obj : Objective) : ℤ :=
  min 100
    (((obj.keyResults.map fun kr => kr.current / kr.target * 100).sum
        / obj.keyResults.length : ℚ) + 1/2).floor

/-! ## Concrete fixtures used by witnesses and counterexamples -/

/-- A key result with the given id, current, target and weight. -/
def mkKR (i : String) (current target : ℚ) (w : ℤ) : KeyResult :=
  { id := i, title := "KR " ++ i, target := target, current := current,
    startDate := "2025-01-01", targetDate := "2025-03-31", weight := w,
    status := "on-track", confidence := "Medium", lastCheckin := "",
    evidence := "", comments := "", createdAt := "2025-01-01" }

/-- An objective with the given id, weight and key results. -/
def mkObj (i : String) (w : ℤ) (krs : List KeyResult) : Objective :=
  { id := i, group := some "Personal", year := 2025, quarter := "1",
    title := "Objective " ++ i, purpose := "", startDate := "2025-01-01",
    targetDate := "2025-03-31", weight := w, lastCheckin := "",
    keyResults := krs, createdAt := "2025-01-01" }

/-! ## Evaluation lemmas for JavaScript numbers on finite values -/

theorem jsAdd_num_num (a b : ℚ) : jsAdd (num a) (num b) = num (a + b) := rfl

theorem jsMul_num_num (a b : ℚ) : jsMul (num a) (num b) = num (a * b) := rfl

theorem jsDiv_num_num (a b : ℚ) (hb : b ≠ 0) :
    jsDiv (num a) (num b) = num (a / b) := by
  simp [jsDiv, hb]

theorem jsRound_num (q : ℚ) :
    jsRound (num q) = num (((q + 1/2).floor : ℤ) : ℚ) := rfl

theorem jsMin_num_num (a b : ℚ) : jsMin (num a) (num b) = num (min a b) := rfl

/-! ## Generic lemmas about the balancing loops -/

theorem assignIdxFrom_map {α β : Type} (f : Nat → α → α) (g : α → β) (w : Nat → β)
    (hfg : ∀ i x, g (f i x) = w i) :
    ∀ (i : Nat) (l : List α),
      (assignIdxFrom f i l).map g = (List.range' i l.length).map w := by
  intro i l
  induction l generalizing i with
  | nil => simp [assignIdxFrom]
  | cons x xs ih =>
      simp [assignIdxFrom, List.range'_succ, hfg, ih]

theorem sum_weight_formula (base r : ℤ) :
    ∀ (len i : Nat),
      (((List.range' i len).map fun j : Nat => base + if (j : ℤ) < r then 1 else 0).sum)
        = len * base + min (max 0 (r - i)) len := by
  intro len
  induction len with
  | zero => intro i; simp
  | succ n ih =>
      intro i
      rw [List.range'_succ, List.map_cons, List.sum_cons, ih (i + 1)]
      push_cast
      have hexp : ((n : ℤ) + 1) * base = (n : ℤ) * base + base := by ring
      rw [hexp]
      generalize (n : ℤ) * base = M
      split <;> omega

theorem weight_formula_mem (base r : ℤ) (n : Nat) (w : ℤ)
    (hw : w ∈ (List.range n).map fun j : Nat => base + if (j : ℤ) < r then 1 else 0) :
    w = base ∨ w = base + 1 := by
  simp only [List.mem_map] at hw
  obtain ⟨j, -, rfl⟩ := hw
  split <;> simp

theorem remainder_eq_emod (n : Nat) (hn : 1 ≤ n) :
    100 - Int.fdiv 100 n * n = (100 : ℤ) % n := by
  have hn' : (0 : ℤ) < n := by exact_mod_cast hn
  rw [Int.fdiv_eq_ediv _ (le_of_lt hn')]
  have h := Int.ediv_add_emod 100 (n : ℤ)
  ring_nf
  ring_nf at h
  linarith

theorem remainder_bounds (n : Nat) (hn : 1 ≤ n) :
    0 ≤ 100 - Int.fdiv 100 n * n ∧ 100 - Int.fdiv 100 n * n < (n : ℤ) := by
  have hn' : (0 : ℤ) < n := by exact_mod_cast hn
  rw [remainder_eq_emod n hn]
  exact ⟨Int.emod_nonneg _ (ne_of_gt hn'), Int.emod_lt_of_pos _ hn'⟩

theorem balanced_sum_100 (n : Nat) (hn : 1 ≤ n) :
    (((List.range n).map fun j : Nat =>
        Int.fdiv 100 n + if (j : ℤ) < 100 - Int.fdiv 100 n * n then 1 else 0).sum)
      = 100 := by
  rw [List.range_eq_range', sum_weight_formula]
  obtain ⟨h0, h1⟩ := remainder_bounds n hn
  push_cast
  rw [sub_zero, max_eq_right h0, min_eq_left (le_of_lt h1)]
  ring

theorem find?_split {α : Type} (p : α → Bool) (l : List α) (a : α)
    (h : l.find? p = some a) :
    ∃ l1 l2, l = l1 ++ a :: l2 ∧ (∀ b ∈ l1, p b = false) ∧ p a = true := by
  induction l with
  | nil => simp at h
  | cons x xs ih =>
      by_cases hx : p x
      · rw [List.find?_cons_of_pos _ hx] at h
        cases h
        exact ⟨[], xs, rfl, by simp, hx⟩
      · rw [List.find?_cons_of_neg _ hx] at h
        obtain ⟨l1, l2, rfl, hl1, hpa⟩ := ih h
        refine ⟨x :: l1, l2, rfl, ?_, hpa⟩
        intro b hb
        rcases List.mem_cons.mp hb with rfl | hb
        · exact Bool.of_not_eq_true hx ▸ by simp [hx]
        · exact hl1 b hb

theorem updateFirst_append_of_first {α : Type} (p : α → Bool) (f : α → α)
    (l1 : List α) (a : α) (l2 : List α)
    (h : ∀ b ∈ l1, p b = false) (ha : p a = true) :
    updateFirst p f (l1 ++ a :: l2) = l1 ++ f a :: l2 := by
  induction l1 with
  | nil => simp [updateFirst, ha]
  | cons x xs ih =>
      have hx : p x = false := h x (by simp)
      simp only [List.cons_append, updateFirst, hx]
      simp [ih fun b hb => h b (by simp [hb])]

/-! ## C1 — equal auto-balance -/

/-- C1: equal auto-balance over `n` sibling objectives (or sibling key
results of one objective): for `n ≥ 1`, after the pass each sibling's
weight is `⌊100/n⌋`, with the first `100 - n*⌊100/n⌋` siblings in
collection order receiving `+1`; the weights sum to exactly 100 and any
two weights differ by at most 1.  For `n = 0` the operation changes
nothing. -/
theorem c1_equal_auto_balance :
    (∀ objs : List Objective, objs.length = 0 →
        autoBalanceObjectiveWeights objs = objs) ∧
    (∀ objs : List Objective, 1 ≤ objs.length →
        ((autoBalanceObjectiveWeights objs).map (fun o => o.weight) =
          (List.range objs.length).map (fun j : Nat =>
            Int.fdiv 100 objs.length +
              if (j : ℤ) < 100 - Int.fdiv 100 objs.length * objs.length
              then 1 else 0)) ∧
        (((autoBalanceObjectiveWeights objs).map (fun o => o.weight)).sum
          = 100) ∧
        (∀ w1 ∈ (autoBalanceObjectiveWeights objs).map (fun o => o.weight),
         ∀ w2 ∈ (autoBalanceObjectiveWeights objs).map (fun o => o.weight),
           w1 - w2 ≤ 1)) ∧
    (∀ (objs : List Objective) (oid : String) (obj : Objective),
        objs.find? (fun o => o.id = oid) = some obj →
        obj.keyResults.length = 0 →
        autoBalanceKRWeights objs oid = objs) ∧
    (∀ (objs : List Objective) (oid : String) (obj : Objective),
        objs.find? (fun o => o.id = oid) = some obj →
        1 ≤ obj.keyResults.length →
        ∃ l1 l2,
          objs = l1 ++ obj :: l2 ∧
          autoBalanceKRWeights objs oid =
            l1 ++ { obj with keyResults :=
              (assignIdxFrom (setKRWeight (Int.fdiv 100 obj.keyResults.length)
                (100 - Int.fdiv 100 obj.keyResults.length * obj.keyResults.length))
                0 obj.keyResults) } :: l2 ∧
          ((assignIdxFrom (setKRWeight (Int.fdiv 100 obj.keyResults.length)
              (100 - Int.fdiv 100 obj.keyResults.length * obj.keyResults.length))
              0 obj.keyResults).map (fun k => k.weight) =
            (List.range obj.keyResults.length).map (fun j : Nat =>
              Int.fdiv 100 obj.keyResults.length +
                if (j : ℤ) < 100 - Int.fdiv 100 obj.keyResults.length *
                    obj.keyResults.length
                then 1 else 0)) ∧
          (((assignIdxFrom (setKRWeight (Int.fdiv 100 obj.keyResults.length)
              (100 - Int.fdiv 100 obj.keyResults.length * obj.keyResults.length))
              0 obj.keyResults).map (fun k => k.weight)).sum = 100)) := by
  refine ⟨?_, ?_, ?_, ?_⟩
  · intro objs h
    simp [autoBalanceObjectiveWeights, h]
  · intro objs h
    have hne : ¬ objs.length = 0 := by omega
    have hmap : (autoBalanceObjectiveWeights objs).map (fun o => o.weight)
        = (List.range objs.length).map (fun j : Nat =>
            Int.fdiv 100 objs.length +
              if (j : ℤ) < 100 - Int.fdiv 100 objs.length * objs.length
              then 1 else 0) := by
      simp only [autoBalanceObjectiveWeights, if_neg hne]
      rw [List.range_eq_range']
      exact assignIdxFrom_map
        (setObjWeight (Int.fdiv 100 objs.length)
          (100 - Int.fdiv 100 objs.length * objs.length))
        (fun o => o.weight)
        (fun j : Nat => Int.fdiv 100 objs.length +
          if (j : ℤ) < 100 - Int.fdiv 100 objs.length * objs.length
          then 1 else 0)
        (fun i x => rfl) 0 objs
    refine ⟨hmap, ?_, ?_⟩
    · rw [hmap]
      exact balanced_sum_100 objs.length h
    · intro w1 hw1 w2 hw2
      rw [hmap] at hw1 hw2
      rcases weight_formula_mem _ _ _ _ hw1 with h1 | h1 <;>
        rcases weight_formula_mem _ _ _ _ hw2 with h2 | h2 <;> omega
  · intro objs oid obj hfind h0
    simp only [autoBalanceKRWeights, hfind]
    rw [if_pos h0]
  · intro objs oid obj hfind h1
    obtain ⟨l1, l2, rfl, hl1, hpa⟩ := find?_split _ _ _ hfind
    have hne : ¬ obj.keyResults.length = 0 := by omega
    have hmap : (assignIdxFrom (setKRWeight (Int.fdiv 100 obj.keyResults.length)
        (100 - Int.fdiv 100 obj.keyResults.length * obj.keyResults.length))
        0 obj.keyResults).map (fun k => k.weight) =
        (List.range obj.keyResults.length).map (fun j : Nat =>
          Int.fdiv 100 obj.keyResults.length +
            if (j : ℤ) < 100 - Int.fdiv 100 obj.keyResults.length *
                obj.keyResults.length
            then 1 else 0) := by
      rw [List.range_eq_range']
      exact assignIdxFrom_map
        (setKRWeight (Int.fdiv 100 obj.keyResults.length)
          (100 - Int.fdiv 100 obj.keyResults.length * obj.keyResults.length))
        (fun k => k.weight)
        (fun j : Nat => Int.fdiv 100 obj.keyResults.length +
          if (j : ℤ) < 100 - Int.fdiv 100 obj.keyResults.length *
              obj.keyResults.length
          then 1 else 0)
        (fun i x => rfl) 0 obj.keyResults
    refine ⟨l1, l2, rfl, ?_, hmap, ?_⟩
    · simp only [autoBalanceKRWeights, hfind]
      rw [if_neg hne]
      exact updateFirst_append_of_first _ _ l1 obj l2 hl1 hpa
    · rw [hmap]
      exact balanced_sum_100 obj.keyResults.length h1

/-- Witness for C1 at concrete inputs: three objectives auto-balance to
weights `[34, 33, 33]` summing to 100, and the empty collection is left
unchanged. -/
theorem c1_equal_auto_balance_witness :
    ((autoBalanceObjectiveWeights
        [mkObj "a" 0 [], mkObj "b" 0 [], mkObj "c" 0 []]).map
          (fun o => o.weight)).sum = 100 ∧
    autoBalanceObjectiveWeights ([] : List Objective) = [] :=
  ⟨(c1_equal_auto_balance.2.1
      [mkObj "a" 0 [], mkObj "b" 0 [], mkObj "c" 0 []] (by simp)).2.1,
   c1_equal_auto_balance.1 [] rfl⟩

/-! ## C5 — history log capacity -/

theorem cons_cap_eq_take (e : HistoryEntry) (h : List HistoryEntry) :
    (if (e :: h).length > 1000 then (e :: h).take 1000 else (e :: h)) =
      (e :: h).take 1000 := by
  by_cases hl : (e :: h).length > 1000
  · rw [if_pos hl]
  · rw [if_neg hl, List.take_of_length_le (by omega)]

/-- C5: `addHistoryEntry` inserts the new entry at the front
(newest-first); after every append the history length never exceeds
1000; when the cap is exceeded the entries at the tail of the array are
the ones removed (the result is always the 1000-entry prefix of the
newest-first list); below the cap nothing is evicted. -/
theorem c5_history_cap :
    ∀ (history : List HistoryEntry)
      (newId timestamp type itemType itemId itemTitle : String)
      (changes : ChangeSet) (group : Option String),
      addHistoryEntry history newId timestamp type itemType itemId itemTitle
          changes group =
        ({ id := newId, timestamp := timestamp, type := type,
           itemType := itemType, itemId := itemId, itemTitle := itemTitle,
           changes := changes, group := group : HistoryEntry }
          :: history).take 1000 ∧
      (addHistoryEntry history newId timestamp type itemType itemId itemTitle
          changes group).length ≤ 1000 ∧
      (addHistoryEntry history newId timestamp type itemType itemId itemTitle
          changes group).head? =
        some { id := newId, timestamp := timestamp, type := type,
               itemType := itemType, itemId := itemId, itemTitle := itemTitle,
               changes := changes, group := group : HistoryEntry } ∧
      (history.length < 1000 →
        addHistoryEntry history newId timestamp type itemType itemId itemTitle
            changes group =
          { id := newId, timestamp := timestamp, type := type,
            itemType := itemType, itemId := itemId, itemTitle := itemTitle,
            changes := changes, group := group : HistoryEntry } :: history) := by
  intro history newId timestamp type itemType itemId itemTitle changes group
  have hmain : addHistoryEntry history newId timestamp type itemType itemId
      itemTitle changes group =
      ({ id := newId, timestamp := timestamp, type := type,
         itemType := itemType, itemId := itemId, itemTitle := itemTitle,
         changes := changes, group := group : HistoryEntry }
        :: history).take 1000 := by
    unfold addHistoryEntry
    exact cons_cap_eq_take _ _
  refine ⟨hmain, ?_, ?_, ?_⟩
  · rw [hmain]
    simp
  · rw [hmain, show (1000 : ℕ) = 999 + 1 from rfl, List.take_succ_cons]
    rfl
  · intro hlt
    rw [hmain]
    exact List.take_of_length_le (by simp only [List.length_cons]; omega)

/-- Witness for C5: appending to an empty history yields exactly the
one new entry at the front. -/
theorem c5_history_cap_witness :
    ([] : List HistoryEntry).length < 1000 ∧
    addHistoryEntry [] "h1" "t1" "created" "objective" "a" "Objective a"
        ChangeSet.created none =
      [{ id := "h1", timestamp := "t1", type := "created",
         itemType := "objective", itemId := "a", itemTitle := "Objective a",
         changes := ChangeSet.created, group := none }] :=
  ⟨by decide,
   (c5_history_cap [] "h1" "t1" "created" "objective" "a" "Objective a"
      ChangeSet.created none).2.2.2 (by decide)⟩

/-! ## C6 — progress at target 0 -/

/-- C6: the claim (and spec §7) requires progress 0 for a key result
with `target == 0`; the code instead divides unguarded, so a key result
with `current = 5, target = 0` evaluates to `Infinity` capped to 100,
and a `0/0` key result evaluates to `NaN` — never to 0. -/
theorem c6_target_zero_progress :
    calculateProgress (mkObj "z" 0 [mkKR "k" 5 0 0]) = num 100 ∧
    krProgress 5 0 = num 100 ∧
    calculateProgress (mkObj "z0" 0 [mkKR "k0" 0 0 0]) = nan ∧
    (num 100 : JSNum) ≠ num 0 ∧ (nan : JSNum) ≠ num 0 := by decide

/-! ## C7 — manual weight edit exceeding 100 -/

/-- C7: the claim (and spec §7) requires an over-100 manual weight to be
rejected or clamped before the balancer runs; the code propagates it
unchanged, so editing the first of two objectives to weight 150 drives
the sibling's weight to −50. -/
theorem c7_overweight_not_clamped :
    ((saveObjective
        { objectives := [mkObj "a" 50 [], mkObj "b" 50 []], history := [] }
        { editId := some "a", group := "Personal", year := 2025,
          quarter := "1", title := "Objective a", purpose := "",
          startDate := "2025-01-01", targetDate := "2025-03-31",
          weight := 150, lastCheckin := "" }
        "n" "e" "te" "s" "ts" "d").objectives.map (fun o => o.weight))
      = [150, -50] ∧ (-50 : ℤ) < 0 := by decide

/-! ## C3 — objective progress formula -/

theorem foldl_ratio_sum :
    ∀ (l : List KeyResult) (init : ℚ), (∀ kr ∈ l, kr.target ≠ 0) →
      l.foldl (fun sum kr =>
          jsAdd sum (jsMul (jsDiv (num kr.current) (num kr.target)) (num 100)))
        (num init)
      = num (init + (l.map fun kr => kr.current / kr.target * 100).sum) := by
  intro l
  induction l with
  | nil => intro init h; simp
  | cons kr rest ih =>
      intro init h
      have ht : kr.target ≠ 0 := h kr (by simp)
      simp only [List.foldl_cons]
      rw [jsDiv_num_num _ _ ht, jsMul_num_num, jsAdd_num_num]
      rw [ih _ (fun k hk => h k (by simp [hk]))]
      congr 1
      simp only [List.map_cons, List.sum_cons]
      ring

/-- C3 counterexample: for the objective with key results
`{current 1, target 6}` and `{current 0, target 1}` the code computes 8
(it averages the raw ratios), while the claim's formula — the mean of
the per-key-result `clamp(round(...))` values, rounded — gives 9. -/
theorem c3_counterexample_rounding :
    calculateProgress (mkObj "o" 0 [mkKR "k1" 1 6 0, mkKR "k2" 0 1 0])
      = num 8 ∧
    specObjectiveProgress (mkObj "o" 0 [mkKR "k1" 1 6 0, mkKR "k2" 0 1 0])
      = 9 ∧
    (num 8 : JSNum) ≠ num 9 :=
  ⟨by with_unfolding_all rfl, by with_unfolding_all rfl, by decide⟩

/-- C3 amended: `objectiveProgress` is 0 with no key results; otherwise
(for key results with nonzero targets) it is the mean of the raw
`current/target*100` ratios — per-key-result values neither rounded nor
clamped — rounded half-up once and capped at 100. -/
theorem c3_amended_mean_of_raw_ratios :
    ∀ obj : Objective,
      (obj.keyResults = [] → calculateProgress obj = num 0) ∧
      (obj.keyResults ≠ [] → (∀ kr ∈ obj.keyResults, kr.target ≠ 0) →
        calculateProgress obj = num (rawMeanObjectiveProgress obj)) := by
  intro obj
  constructor
  · intro h
    simp [calculateProgress, h]
  · intro hne ht
    have hlen : ¬ obj.keyResults.length = 0 := by
      simpa [List.length_eq_zero] using hne
    have hn : ((obj.keyResults.length : ℚ)) ≠ 0 := by
      exact_mod_cast hlen
    simp only [calculateProgress]
    rw [if_neg hlen, foldl_ratio_sum obj.keyResults 0 ht, zero_add,
      jsDiv_num_num _ _ hn, jsRound_num, jsMin_num_num]
    unfold rawMeanObjectiveProgress
    congr 1
    push_cast
    ring_nf

/-- Witness for C3's amended statement at the claim's own example:
key results `50/100` and `30/100` give objective progress 40. -/
theorem c3_amended_witness :
    calculateProgress (mkObj "o" 0 [mkKR "k1" 50 100 0, mkKR "k2" 30 100 0])
      = num (rawMeanObjectiveProgress
          (mkObj "o" 0 [mkKR "k1" 50 100 0, mkKR "k2" 30 100 0])) ∧
    rawMeanObjectiveProgress
        (mkObj "o" 0 [mkKR "k1" 50 100 0, mkKR "k2" 30 100 0]) = 40 :=
  ⟨(c3_amended_mean_of_raw_ratios
      (mkObj "o" 0 [mkKR "k1" 50 100 0, mkKR "k2" 30 100 0])).2
    (by decide) (by decide), by with_unfolding_all rfl⟩

/-! ## Further helper lemmas about the log and in-place updates -/

theorem addHistoryEntry_eq_cons (history : List HistoryEntry)
    (newId timestamp type itemType itemId itemTitle : String)
    (changes : ChangeSet) (group : Option String)
    (h : history.length < 1000) :
    addHistoryEntry history newId timestamp type itemType itemId itemTitle
        changes group =
      { id := newId, timestamp := timestamp, type := type,
        itemType := itemType, itemId := itemId, itemTitle := itemTitle,
        changes := changes, group := group : HistoryEntry } :: history := by
  unfold addHistoryEntry
  rw [if_neg (by simp only [List.length_cons]; omega)]

theorem addHistoryEntry_eq_take (history : List HistoryEntry)
    (newId timestamp type itemType itemId itemTitle : String)
    (changes : ChangeSet) (group : Option String) :
    addHistoryEntry history newId timestamp type itemType itemId itemTitle
        changes group =
      ({ id := newId, timestamp := timestamp, type := type,
         itemType := itemType, itemId := itemId, itemTitle := itemTitle,
         changes := changes, group := group : HistoryEntry }
        :: history).take 1000 := by
  unfold addHistoryEntry
  exact cons_cap_eq_take _ _

theorem length_updateFirst {α : Type} (p : α → Bool) (f : α → α) :
    ∀ l : List α, (updateFirst p f l).length = l.length := by
  intro l
  induction l with
  | nil => rfl
  | cons x xs ih =>
      simp only [updateFirst]
      split <;> simp [ih]

theorem updateFirst_eq_self {α : Type} (p : α → Bool) (f : α → α)
    (l : List α) (a : α) (hfind : l.find? p = some a) (hfix : f a = a) :
    updateFirst p f l = l := by
  obtain ⟨l1, l2, rfl, h1, hpa⟩ := find?_split p l a hfind
  rw [updateFirst_append_of_first p f l1 a l2 h1 hpa, hfix]

theorem find?_some_length_pos {α : Type} (p : α → Bool) (l : List α) (a : α)
    (hfind : l.find? p = some a) : ¬ l.length = 0 := by
  obtain ⟨l1, l2, rfl, -, -⟩ := find?_split p l a hfind
  simp

/-! ## C9 — the snapshot entry and its payload -/

/-- C9 counterexample: the snapshot entry's `group` field is `null`
(the string `'all'` is passed as the entry's `itemId`), so the claimed
`group "all"` is wrong: recording a snapshot over one objective appends
exactly one entry whose `group` is `none`, not `some "all"`. -/
theorem c9_counterexample_group_is_null :
    ((recordProgressSnapshot { objectives := [mkObj "a" 0 []], history := [] }
        "s1" "t1").history.map (fun e => e.group)) = [none] ∧
    (none : Option String) ≠ some "all" := by decide

/-- C9 amended: after a mutating operation, if at least one objective is
present, `recordProgressSnapshot` appends through the capped log exactly
one entry of type `progress-snapshot` with `itemType "system"`,
`itemId "all"` and `group` null, whose payload captures every current
objective's id, title, group (defaulted to Personal) and computed
progress, and for every key result its id, title, progress, current and
target; with no objectives nothing is appended. -/
theorem c9_amended_snapshot_entry :
    ∀ (d : AppData) (entryId ts : String),
      (d.objectives = [] → recordProgressSnapshot d entryId ts = d) ∧
      (d.objectives ≠ [] →
        (recordProgressSnapshot d entryId ts).objectives = d.objectives ∧
        ∃ e : HistoryEntry,
          (recordProgressSnapshot d entryId ts).history
            = (e :: d.history).take 1000 ∧
          e.type = "progress-snapshot" ∧ e.itemType = "system" ∧
          e.itemId = "all" ∧ e.group = none ∧
          ∃ snap : Snapshot, e.changes = ChangeSet.snapshot snap ∧
            snap.objectives.length = d.objectives.length ∧
            (∀ (j : Nat) (obj : Objective), d.objectives[j]? = some obj →
              ∃ p, snap.objectives[j]? = some p ∧
                p.1 = obj.id ∧ p.2.title = obj.title ∧
                p.2.group = obj.group.getD "Personal" ∧
                p.2.progress = calculateProgress obj ∧
                (∀ (i : Nat) (kr : KeyResult), obj.keyResults[i]? = some kr →
                  ∃ q, p.2.keyResults[i]? = some q ∧
                    q.1 = kr.id ∧ q.2.title = kr.title ∧
                    q.2.progress = krProgress kr.current kr.target ∧
                    q.2.current = kr.current ∧ q.2.target = kr.target))) := by
  intro d entryId ts
  constructor
  · intro h
    simp [recordProgressSnapshot, h]
  · intro hne
    have hlen : ¬ d.objectives.length = 0 := by
      simpa [List.length_eq_zero] using hne
    unfold recordProgressSnapshot
    rw [if_neg hlen]
    refine ⟨rfl, ?_⟩
    refine ⟨_, addHistoryEntry_eq_take _ _ _ _ _ _ _ _ _, rfl, rfl, rfl, rfl,
      { timestamp := ts, objectives := d.objectives.map objSnapOf }, rfl,
      by simp, ?_⟩
    intro j obj hj
    refine ⟨objSnapOf obj, ?_, rfl, rfl, rfl, rfl, ?_⟩
    · simp [List.getElem?_map, hj]
    · intro i kr hi
      refine ⟨krSnapOf kr, ?_, rfl, rfl, rfl, rfl, rfl⟩
      simp [objSnapOf, List.getElem?_map, hi]

/-- Witness for C9's amended statement: recording over one concrete
objective leaves the objectives unchanged (and appends the entry). -/
theorem c9_amended_snapshot_entry_witness :
    (recordProgressSnapshot { objectives := [mkObj "a" 0 []], history := [] }
        "s1" "t1").objectives = [mkObj "a" 0 []] :=
  ((c9_amended_snapshot_entry
      { objectives := [mkObj "a" 0 []], history := [] } "s1" "t1").2
    (by decide)).1

theorem recordProgressSnapshot_objectives (d : AppData) (i t : String) :
    (recordProgressSnapshot d i t).objectives = d.objectives := by
  unfold recordProgressSnapshot
  split <;> rfl

/-! ## C10 — progress entry appended iff current changed -/

/-- C10: for `updateKR` on an existing key result (with history below
the cap so no truncation interferes), a `progress` entry is appended iff
the stored current value actually changed; when the clamp leaves it
unchanged the objectives are untouched and only the progress-snapshot
entry is recorded. -/
theorem c10_progress_entry_iff_changed :
    ∀ (d : AppData) (oid kid : String) (delta : ℚ)
      (eid ets sid sts : String) (objective : Objective) (kr : KeyResult),
      d.objectives.find? (fun o => o.id = oid) = some objective →
      objective.keyResults.find? (fun k => k.id = kid) = some kr →
      d.history.length ≤ 998 →
      ((kr.current ≠ max 0 (min kr.target (kr.current + delta)) →
          ∃ snapE progE,
            (updateKR d oid kid delta eid ets sid sts).history
              = snapE :: progE :: d.history ∧
            snapE.type = "progress-snapshot" ∧ progE.type = "progress") ∧
       (kr.current = max 0 (min kr.target (kr.current + delta)) →
          (updateKR d oid kid delta eid ets sid sts).objectives
            = d.objectives ∧
          ∃ snapE,
            (updateKR d oid kid delta eid ets sid sts).history
              = snapE :: d.history ∧
            snapE.type = "progress-snapshot")) := by
  intro d oid kid delta eid ets sid sts objective kr hfo hfk hlen
  have hoplen : ¬ d.objectives.length = 0 := find?_some_length_pos _ _ _ hfo
  constructor
  · intro hch
    simp only [updateKR, hfo, hfk]
    rw [if_pos hch, addHistoryEntry_eq_cons _ _ _ _ _ _ _ _ _ (by omega)]
    simp only [recordProgressSnapshot]
    rw [if_neg (by rw [length_updateFirst]; exact hoplen)]
    rw [addHistoryEntry_eq_cons _ _ _ _ _ _ _ _ _
      (by simp only [List.length_cons]; omega)]
    exact ⟨_, _, rfl, rfl, rfl⟩
  · intro hunch
    have hinner : updateFirst (fun k => k.id = kid)
        (fun k => { k with current := max 0 (min kr.target (kr.current + delta)) })
        objective.keyResults = objective.keyResults :=
      updateFirst_eq_self _ _ _ kr hfk (by rw [← hunch])
    have houter : updateFirst (fun o => o.id = oid)
        (fun o => { o with keyResults :=
          (updateFirst (fun k => k.id = kid)
            (fun k => { k with current := max 0 (min kr.target (kr.current + delta)) })
            o.keyResults) })
        d.objectives = d.objectives :=
      updateFirst_eq_self _ _ _ objective hfo (by simp only [hinner])
    constructor
    · simp only [updateKR, hfo, hfk]
      rw [houter, recordProgressSnapshot_objectives]
    · simp only [updateKR, hfo, hfk]
      rw [if_neg (not_not_intro hunch)]
      simp only [recordProgressSnapshot]
      rw [if_neg (by rw [length_updateFirst]; exact hoplen)]
      rw [addHistoryEntry_eq_cons _ _ _ _ _ _ _ _ _ (by omega)]
      exact ⟨_, rfl, rfl⟩

/-- Witness for C10 at a concrete input: incrementing a key result that
already sits at its target leaves the objectives unchanged. -/
theorem c10_progress_entry_iff_changed_witness :
    (updateKR
        { objectives := [mkObj "a" 0 [mkKR "k" 100 100 100]], history := [] }
        "a" "k" 10 "e1" "t1" "s1" "t2").objectives
      = [mkObj "a" 0 [mkKR "k" 100 100 100]] :=
  ((c10_progress_entry_iff_changed
      { objectives := [mkObj "a" 0 [mkKR "k" 100 100 100]], history := [] }
      "a" "k" 10 "e1" "t1" "s1" "t2"
      (mkObj "a" 0 [mkKR "k" 100 100 100]) (mkKR "k" 100 100 100)
      (by decide) (by decide) (by decide)).2
    (by with_unfolding_all rfl)).1

/-! ## C8 — operations on non-existent ids -/

/-- C8 counterexample: deleting a non-existent objective id does NOT
leave the document unchanged — `recordProgressSnapshot` still runs, so
with one objective present the history grows by one snapshot entry. -/
theorem c8_counterexample_snapshot_still_appended :
    (deleteObjective { objectives := [mkObj "a" 0 []], history := [] }
        "zzz" "e1" "t1" "s1" "t2").history.length = 1 ∧
    deleteObjective { objectives := [mkObj "a" 0 []], history := [] }
        "zzz" "e1" "t1" "s1" "t2"
      ≠ { objectives := [mkObj "a" 0 []], history := [] } := by decide

/-- C8 amended: an edit, delete or progress-update on a non-existent id
raises no error and leaves the objectives collection unchanged, and no
`created`/`updated`/`progress`/`deleted` entry is logged; `updateKR`
and `saveKeyResult` with a missing objective id are complete no-ops,
but `deleteObjective`, `deleteKR` (with an existing objective id),
`saveObjective` with a stale edit id and `saveKeyResult` with a stale
key-result edit id still invoke the snapshot recorder, which appends
one progress-snapshot entry whenever at least one objective exists. -/
theorem c8_amended_missing_id_noop :
    ∀ (d : AppData) (oid kid eid : String) (delta : ℚ)
      (e1 t1 s1 t2 : String) (form : ObjectiveFormData)
      (newId today title : String) (target : ℤ)
      (startDate targetDate : String) (weight : ℤ)
      (status confidence lastCheckin evidence comments newKrId : String),
      (d.objectives.find? (fun o => o.id = oid) = none →
        updateKR d oid kid delta e1 t1 s1 t2 = d) ∧
      (∀ objective : Objective,
        d.objectives.find? (fun o => o.id = oid) = some objective →
        objective.keyResults.find? (fun k => k.id = kid) = none →
        updateKR d oid kid delta e1 t1 s1 t2 = d) ∧
      ((∀ o ∈ d.objectives, ¬ o.id = oid) →
        deleteObjective d oid e1 t1 s1 t2 = recordProgressSnapshot d s1 t2) ∧
      (d.objectives.find? (fun o => o.id = oid) = none →
        deleteKR d oid kid e1 t1 s1 t2 = d) ∧
      (∀ objective : Objective,
        d.objectives.find? (fun o => o.id = oid) = some objective →
        (∀ k ∈ objective.keyResults, ¬ k.id = kid) →
        deleteKR d oid kid e1 t1 s1 t2 = recordProgressSnapshot d s1 t2) ∧
      (form.editId = some eid →
        d.objectives.find? (fun o => o.id = eid) = none →
        saveObjective d form newId e1 t1 s1 t2 today
          = recordProgressSnapshot d s1 t2) ∧
      (d.objectives.find? (fun o => o.id = oid) = none →
        saveKeyResult d oid title target startDate targetDate weight status
          confidence lastCheckin evidence comments (some eid) newKrId
          e1 t1 s1 t2 today = d) ∧
      (∀ objective : Objective,
        d.objectives.find? (fun o => o.id = oid) = some objective →
        objective.keyResults.find? (fun k => k.id = eid) = none →
        saveKeyResult d oid title target startDate targetDate weight status
          confidence lastCheckin evidence comments (some eid) newKrId
          e1 t1 s1 t2 today = recordProgressSnapshot d s1 t2) ∧
      (recordProgressSnapshot d s1 t2).objectives = d.objectives := by
  intro d oid kid eid delta e1 t1 s1 t2 form newId today title target
    startDate targetDate weight status confidence lastCheckin evidence
    comments newKrId
  refine ⟨?_, ?_, ?_, ?_, ?_, ?_, ?_, ?_,
    recordProgressSnapshot_objectives d s1 t2⟩
  · intro h
    simp only [updateKR, h]
  · intro objective hfo hfk
    simp only [updateKR, hfo, hfk]
  · intro hall
    have hfind : d.objectives.find? (fun o => o.id = oid) = none := by
      rw [List.find?_eq_none]
      intro x hx
      simpa using hall x hx
    have hfilt : d.objectives.filter (fun o => o.id ≠ oid) = d.objectives := by
      rw [List.filter_eq_self]
      intro a ha
      simpa using hall a ha
    simp only [deleteObjective, hfind, hfilt]
  · intro h
    simp only [deleteKR, h]
  · intro objective hfo hall
    have hfk : objective.keyResults.find? (fun k => k.id = kid) = none := by
      rw [List.find?_eq_none]
      intro x hx
      simpa using hall x hx
    have hfilt : objective.keyResults.filter (fun k => k.id ≠ kid)
        = objective.keyResults := by
      rw [List.filter_eq_self]
      intro a ha
      simpa using hall a ha
    have houter : updateFirst (fun o => o.id = oid)
        (fun o => { o with keyResults :=
          (o.keyResults.filter (fun k => k.id ≠ kid)) })
        d.objectives = d.objectives :=
      updateFirst_eq_self _ _ _ objective hfo (by simp only [hfilt])
    simp only [deleteKR, hfo, hfk, houter]
  · intro hEdit hfind
    simp only [saveObjective, hEdit, hfind]
  · intro hfo
    simp only [saveKeyResult, hfo]
  · intro objective hfo hfk
    simp only [saveKeyResult, hfo, hfk]

/-- Witness for C8's amended statement at concrete inputs: a
progress-update on a missing objective id is a complete no-op, while
deleting a missing objective id and editing a missing objective id via
the objective form both degenerate to a bare snapshot record. -/
theorem c8_amended_missing_id_noop_witness :
    updateKR { objectives := [mkObj "a" 0 []], history := [] } "zzz" "k" 1
        "e1" "t1" "s1" "t2"
      = { objectives := [mkObj "a" 0 []], history := [] } ∧
    deleteObjective { objectives := [mkObj "a" 0 []], history := [] } "zzz"
        "e1" "t1" "s1" "t2"
      = recordProgressSnapshot { objectives := [mkObj "a" 0 []], history := [] }
          "s1" "t2" ∧
    saveObjective { objectives := [mkObj "a" 0 []], history := [] }
        { editId := some "zzz", group := "Personal", year := 2025,
          quarter := "1", title := "T", purpose := "",
          startDate := "2025-01-01", targetDate := "2025-03-31",
          weight := 10, lastCheckin := "" }
        "n" "e1" "t1" "s1" "t2" "d"
      = recordProgressSnapshot { objectives := [mkObj "a" 0 []], history := [] }
          "s1" "t2" :=
  ⟨(c8_amended_missing_id_noop
      { objectives := [mkObj "a" 0 []], history := [] } "zzz" "k" "zzz" 1
      "e1" "t1" "s1" "t2"
      { editId := some "zzz", group := "Personal", year := 2025,
        quarter := "1", title := "T", purpose := "",
        startDate := "2025-01-01", targetDate := "2025-03-31",
        weight := 10, lastCheckin := "" }
      "n" "d" "t" 1 "" "" 1 "on-track" "Medium" "" "" "" "nk").1 (by decide),
   (c8_amended_missing_id_noop
      { objectives := [mkObj "a" 0 []], history := [] } "zzz" "k" "zzz" 1
      "e1" "t1" "s1" "t2"
      { editId := some "zzz", group := "Personal", year := 2025,
        quarter := "1", title := "T", purpose := "",
        startDate := "2025-01-01", targetDate := "2025-03-31",
        weight := 10, lastCheckin := "" }
      "n" "d" "t" 1 "" "" 1 "on-track" "Medium" "" "" "" "nk").2.2.1
      (by decide),
   (c8_amended_missing_id_noop
      { objectives := [mkObj "a" 0 []], history := [] } "zzz" "k" "zzz" 1
      "e1" "t1" "s1" "t2"
      { editId := some "zzz", group := "Personal", year := 2025,
        quarter := "1", title := "T", purpose := "",
        startDate := "2025-01-01", targetDate := "2025-03-31",
        weight := 10, lastCheckin := "" }
      "n" "d" "t" 1 "" "" 1 "on-track" "Medium" "" "" "" "nk").2.2.2.2.2.1
      rfl (by decide)⟩

/-! ## Lemmas for the manual-set rebalance path -/

theorem find?_first {α : Type} (p : α → Bool) (l1 : List α) (a : α)
    (l2 : List α) (h1 : ∀ b ∈ l1, p b = false) (ha : p a = true) :
    (l1 ++ a :: l2).find? p = some a := by
  induction l1 with
  | nil => simp [List.find?_cons_of_pos _ ha]
  | cons x xs ih =>
      rw [List.cons_append, List.find?_cons_of_neg _ (by simp [h1 x (by simp)])]
      exact ih fun b hb => h1 b (by simp [hb])

theorem filter_keep_others {α : Type} (idf : α → String) (eid : String)
    (l1 l2 : List α) (a : α)
    (h1 : ∀ b ∈ l1, ¬ idf b = eid) (h2 : ∀ b ∈ l2, ¬ idf b = eid)
    (ha : idf a = eid) :
    (l1 ++ a :: l2).filter (fun x => idf x ≠ eid) = l1 ++ l2 := by
  have hkeep : ∀ l : List α, (∀ b ∈ l, ¬ idf b = eid) →
      l.filter (fun x => idf x ≠ eid) = l := by
    intro l h
    rw [List.filter_eq_self]
    intro b hb
    simpa using h b hb
  rw [List.filter_append, hkeep l1 h1, List.filter_cons,
    if_neg (by simp [ha]), hkeep l2 h2]

theorem assignOtherIdxFrom_all_false {α : Type} (isEd : α → Bool)
    (f : Nat → α → α) :
    ∀ (l : List α) (i : Nat), (∀ b ∈ l, isEd b = false) →
      assignOtherIdxFrom isEd f i l = assignIdxFrom f i l := by
  intro l
  induction l with
  | nil => intro i _; rfl
  | cons x xs ih =>
      intro i h
      have hx : isEd x = false := h x (by simp)
      simp only [assignOtherIdxFrom, assignIdxFrom, hx, Bool.false_eq_true,
        if_false]
      rw [ih (i + 1) fun b hb => h b (by simp [hb])]

theorem assignOtherIdxFrom_split {α : Type} (isEd : α → Bool)
    (f : Nat → α → α) (l1 : List α) (a : α) (l2 : List α)
    (h1 : ∀ b ∈ l1, isEd b = false) (ha : isEd a = true)
    (h2 : ∀ b ∈ l2, isEd b = false) :
    ∀ i : Nat,
      assignOtherIdxFrom isEd f i (l1 ++ a :: l2)
        = assignIdxFrom f i l1 ++ a :: assignIdxFrom f (i + l1.length) l2 := by
  induction l1 with
  | nil =>
      intro i
      simp only [List.nil_append, assignOtherIdxFrom, ha, if_true,
        assignIdxFrom, List.length_nil, Nat.add_zero]
      rw [assignOtherIdxFrom_all_false isEd f l2 i h2]
  | cons x xs ih =>
      intro i
      have hx : isEd x = false := h1 x (by simp)
      simp only [List.cons_append, assignOtherIdxFrom, hx,
        Bool.false_eq_true, if_false, assignIdxFrom, List.length_cons,
        List.append_eq]
      rw [ih (fun b hb => h1 b (by simp [hb])) (i + 1)]
      have hidx : i + 1 + xs.length = i + (xs.length + 1) := by omega
      rw [hidx]

theorem balanceOtherObjectives_split (eid : String) (w : ℤ)
    (l1 l2 : List Objective) (a : Objective)
    (h1 : ∀ o ∈ l1, ¬ o.id = eid) (h2 : ∀ o ∈ l2, ¬ o.id = eid)
    (ha : a.id = eid) (hm : l1 ++ l2 ≠ []) :
    balanceOtherObjectives (l1 ++ a :: l2) eid w
      = assignIdxFrom
          (setObjWeight (Int.fdiv (100 - w) (l1 ++ l2).length)
            ((100 - w) -
              Int.fdiv (100 - w) (l1 ++ l2).length * (l1 ++ l2).length))
          0 l1
        ++ a :: assignIdxFrom
          (setObjWeight (Int.fdiv (100 - w) (l1 ++ l2).length)
            ((100 - w) -
              Int.fdiv (100 - w) (l1 ++ l2).length * (l1 ++ l2).length))
          l1.length l2 := by
  have hm0 : ¬ (l1 ++ l2).length = 0 := by
    simpa [List.length_eq_zero] using hm
  simp only [balanceOtherObjectives]
  rw [if_neg (by
    simp only [List.length_append, List.length_cons]
    simp only [List.length_append] at hm0
    omega)]
  rw [filter_keep_others Objective.id eid l1 l2 a h1 h2 ha, if_neg hm0]
  rw [assignOtherIdxFrom_split (fun o : Objective => o.id = eid)
    (setObjWeight (Int.fdiv (100 - w) (l1 ++ l2).length)
      ((100 - w) - Int.fdiv (100 - w) (l1 ++ l2).length * (l1 ++ l2).length))
    l1 a l2 (by intro b hb; simpa using h1 b hb) (by simp [ha])
    (by intro b hb; simpa using h2 b hb) 0]
  rw [Nat.zero_add]

theorem balanceOtherKRs_split (oid kid : String) (w : ℤ)
    (o1 o2 : List Objective) (objective : Objective)
    (k1 k2 : List KeyResult) (krE : KeyResult)
    (ho1 : ∀ o ∈ o1, ¬ o.id = oid) (hoid : objective.id = oid)
    (hkrs : objective.keyResults = k1 ++ krE :: k2)
    (hk1 : ∀ k ∈ k1, ¬ k.id = kid) (hk2 : ∀ k ∈ k2, ¬ k.id = kid)
    (hkid : krE.id = kid) (hm : k1 ++ k2 ≠ []) :
    balanceOtherKRs (o1 ++ objective :: o2) oid kid w
      = o1 ++ { objective with keyResults :=
          (assignIdxFrom
            (setKRWeight (Int.fdiv (100 - w) (k1 ++ k2).length)
              ((100 - w) -
                Int.fdiv (100 - w) (k1 ++ k2).length * (k1 ++ k2).length))
            0 k1
          ++ krE :: assignIdxFrom
            (setKRWeight (Int.fdiv (100 - w) (k1 ++ k2).length)
              ((100 - w) -
                Int.fdiv (100 - w) (k1 ++ k2).length * (k1 ++ k2).length))
            k1.length k2) } :: o2 := by
  have hm0 : ¬ (k1 ++ k2).length = 0 := by
    simpa [List.length_eq_zero] using hm
  have hfindO : (o1 ++ objective :: o2).find? (fun o => o.id = oid)
      = some objective :=
    find?_first _ o1 objective o2
      (by intro b hb; simpa using ho1 b hb) (by simp [hoid])
  simp only [balanceOtherKRs, hfindO]
  rw [hkrs]
  rw [if_neg (by
    simp only [List.length_append, List.length_cons]
    simp only [List.length_append] at hm0
    omega)]
  rw [filter_keep_others KeyResult.id kid k1 k2 krE hk1 hk2 hkid, if_neg hm0]
  rw [updateFirst_append_of_first _ _ o1 objective o2
    (by intro b hb; simpa using ho1 b hb) (by simp [hoid])]
  have hbody : assignOtherIdxFrom (fun k : KeyResult => k.id = kid)
      (setKRWeight (Int.fdiv (100 - w) (k1 ++ k2).length)
        ((100 - w) - Int.fdiv (100 - w) (k1 ++ k2).length * (k1 ++ k2).length))
      0 objective.keyResults
      = assignIdxFrom
          (setKRWeight (Int.fdiv (100 - w) (k1 ++ k2).length)
            ((100 - w) -
              Int.fdiv (100 - w) (k1 ++ k2).length * (k1 ++ k2).length))
          0 k1
        ++ krE :: assignIdxFrom
          (setKRWeight (Int.fdiv (100 - w) (k1 ++ k2).length)
            ((100 - w) -
              Int.fdiv (100 - w) (k1 ++ k2).length * (k1 ++ k2).length))
          k1.length k2 := by
    rw [hkrs]
    rw [assignOtherIdxFrom_split (fun k : KeyResult => k.id = kid) _
      k1 krE k2 (by intro b hb; simpa using hk1 b hb) (by simp [hkid])
      (by intro b hb; simpa using hk2 b hb) 0]
    rw [Nat.zero_add]
  simp only [hbody]

/-! ## C2 — manual-set rebalance -/

/-- C2: when an item's weight is edited to a new value `w` differing
from its prior value, the edited item keeps weight `w` and every other
sibling, in existing collection order, receives `⌊(100-w)/m⌋` plus 1
for the first `(100-w) - m*⌊(100-w)/m⌋` of the `m` other siblings; with
no other siblings no further weight changes happen.  Stated for the
objective edit path (`saveObjective`) and the key-result edit path
(`saveKeyResult`). -/
theorem c2_manual_set_rebalance :
    (∀ (d : AppData) (form : ObjectiveFormData) (eid : String)
       (l1 l2 : List Objective) (obj : Objective)
       (newId entryId entryTs snapId snapTs today : String),
      form.editId = some eid →
      d.objectives = l1 ++ obj :: l2 →
      obj.id = eid →
      (∀ o ∈ l1 ++ l2, ¬ o.id = eid) →
      obj.weight ≠ form.weight →
      ((applyObjectiveForm form obj).weight = form.weight ∧
       (l1 ++ l2 = [] →
         (saveObjective d form newId entryId entryTs snapId snapTs
             today).objectives
           = l1 ++ applyObjectiveForm form obj :: l2) ∧
       (l1 ++ l2 ≠ [] →
         (saveObjective d form newId entryId entryTs snapId snapTs
             today).objectives
           = assignIdxFrom
               (setObjWeight (Int.fdiv (100 - form.weight) (l1 ++ l2).length)
                 ((100 - form.weight) -
                   Int.fdiv (100 - form.weight) (l1 ++ l2).length *
                     (l1 ++ l2).length))
               0 l1
             ++ applyObjectiveForm form obj ::
               assignIdxFrom
                 (setObjWeight
                   (Int.fdiv (100 - form.weight) (l1 ++ l2).length)
                   ((100 - form.weight) -
                     Int.fdiv (100 - form.weight) (l1 ++ l2).length *
                       (l1 ++ l2).length))
                 l1.length l2))) ∧
    (∀ (d : AppData) (oid title : String) (target : ℤ)
       (startDate targetDate : String) (weight : ℤ)
       (status confidence lastCheckin evidence comments kid : String)
       (o1 o2 : List Objective) (objective : Objective)
       (k1 k2 : List KeyResult) (kr : KeyResult)
       (newKrId entryId entryTs snapId snapTs today : String),
      d.objectives = o1 ++ objective :: o2 →
      objective.id = oid →
      (∀ o ∈ o1, ¬ o.id = oid) →
      objective.keyResults = k1 ++ kr :: k2 →
      kr.id = kid →
      (∀ k ∈ k1 ++ k2, ¬ k.id = kid) →
      kr.weight ≠ weight →
      ((applyKRForm title target startDate targetDate weight status
          confidence lastCheckin evidence comments kr).weight = weight ∧
       (k1 ++ k2 = [] →
         (saveKeyResult d oid title target startDate targetDate weight
             status confidence lastCheckin evidence comments (some kid)
             newKrId entryId entryTs snapId snapTs today).objectives
           = o1 ++ { objective with keyResults :=
               (k1 ++ applyKRForm title target startDate targetDate weight
                 status confidence lastCheckin evidence comments kr :: k2) }
             :: o2) ∧
       (k1 ++ k2 ≠ [] →
         (saveKeyResult d oid title target startDate targetDate weight
             status confidence lastCheckin evidence comments (some kid)
             newKrId entryId entryTs snapId snapTs today).objectives
           = o1 ++ { objective with keyResults :=
               (assignIdxFrom
                 (setKRWeight (Int.fdiv (100 - weight) (k1 ++ k2).length)
                   ((100 - weight) -
                     Int.fdiv (100 - weight) (k1 ++ k2).length *
                       (k1 ++ k2).length))
                 0 k1
               ++ applyKRForm title target startDate targetDate weight
                   status confidence lastCheckin evidence comments kr ::
                 assignIdxFrom
                   (setKRWeight (Int.fdiv (100 - weight) (k1 ++ k2).length)
                     ((100 - weight) -
                       Int.fdiv (100 - weight) (k1 ++ k2).length *
                         (k1 ++ k2).length))
                   k1.length k2) } :: o2))) := by
  constructor
  · intro d form eid l1 l2 obj newId entryId entryTs snapId snapTs today
      hEdit hObjs hid hothers hw
    obtain ⟨objs, hist⟩ := d
    have hObjs' : objs = l1 ++ obj :: l2 := hObjs
    subst hObjs'
    have hl1 : ∀ o ∈ l1, ¬ o.id = eid := fun o ho => hothers o (by simp [ho])
    have hl2 : ∀ o ∈ l2, ¬ o.id = eid := fun o ho => hothers o (by simp [ho])
    have hsave : (saveObjective ⟨l1 ++ obj :: l2, hist⟩ form newId entryId
        entryTs snapId snapTs today).objectives
        = balanceOtherObjectives (l1 ++ applyObjectiveForm form obj :: l2)
            eid form.weight := by
      simp only [saveObjective, hEdit,
        find?_first (fun o : Objective => o.id = eid) l1 obj l2
          (by intro b hb; simpa using hl1 b hb) (by simp [hid]),
        recordProgressSnapshot_objectives]
      rw [updateFirst_append_of_first _ _ l1 obj l2
        (by intro b hb; simpa using hl1 b hb) (by simp [hid])]
      rw [if_pos hw]
    refine ⟨rfl, ?_, ?_⟩
    · intro hm
      obtain ⟨hl1e, hl2e⟩ := List.append_eq_nil.mp hm
      subst hl1e
      subst hl2e
      rw [hsave]
      simp [balanceOtherObjectives]
    · intro hm
      rw [hsave]
      exact balanceOtherObjectives_split eid form.weight l1 l2
        (applyObjectiveForm form obj) hl1 hl2 (by simp [applyObjectiveForm, hid]) hm
  · intro d oid title target startDate targetDate weight status confidence
      lastCheckin evidence comments kid o1 o2 objective k1 k2 kr
      newKrId entryId entryTs snapId snapTs today
      hObjs hoid ho1 hkrs hkid hkothers hw
    obtain ⟨objs, hist⟩ := d
    have hObjs' : objs = o1 ++ objective :: o2 := hObjs
    subst hObjs'
    have hk1 : ∀ k ∈ k1, ¬ k.id = kid := fun k hk => hkothers k (by simp [hk])
    have hk2 : ∀ k ∈ k2, ¬ k.id = kid := fun k hk => hkothers k (by simp [hk])
    have hfindK : objective.keyResults.find? (fun k => k.id = kid)
        = some kr := by
      rw [hkrs]
      exact find?_first _ k1 kr k2
        (by intro b hb; simpa using hk1 b hb) (by simp [hkid])
    have hinner : updateFirst (fun k => k.id = kid)
        (applyKRForm title target startDate targetDate weight status
          confidence lastCheckin evidence comments)
        objective.keyResults
        = k1 ++ applyKRForm title target startDate targetDate weight status
            confidence lastCheckin evidence comments kr :: k2 := by
      rw [hkrs]
      exact updateFirst_append_of_first _ _ k1 kr k2
        (by intro b hb; simpa using hk1 b hb) (by simp [hkid])
    have hsave : (saveKeyResult ⟨o1 ++ objective :: o2, hist⟩ oid title
        target startDate targetDate weight status confidence lastCheckin
        evidence comments (some kid) newKrId entryId entryTs snapId snapTs
        today).objectives
        = balanceOtherKRs
            (o1 ++ { objective with keyResults :=
              (k1 ++ applyKRForm title target startDate targetDate weight
                status confidence lastCheckin evidence comments kr :: k2) }
              :: o2)
            oid kid weight := by
      simp only [saveKeyResult,
        find?_first (fun o : Objective => o.id = oid) o1 objective o2
          (by intro b hb; simpa using ho1 b hb) (by simp [hoid]),
        hfindK, recordProgressSnapshot_objectives]
      rw [if_pos hw]
      rw [updateFirst_append_of_first _ _ o1 objective o2
        (by intro b hb; simpa using ho1 b hb) (by simp [hoid])]
      simp only [hinner]
    refine ⟨rfl, ?_, ?_⟩
    · intro hm
      obtain ⟨hk1e, hk2e⟩ := List.append_eq_nil.mp hm
      subst hk1e
      subst hk2e
      rw [hsave]
      have hfind2 : (o1 ++ { objective with keyResults :=
          ([] ++ applyKRForm title target startDate targetDate weight status
            confidence lastCheckin evidence comments kr :: []) }
          :: o2).find? (fun o => o.id = oid)
          = some { objective with keyResults :=
            ([] ++ applyKRForm title target startDate targetDate weight
              status confidence lastCheckin evidence comments kr :: []) } :=
        find?_first _ o1 _ o2
          (by intro b hb; simpa using ho1 b hb) (by simp [hoid])
      simp only [balanceOtherKRs, hfind2]
      rw [if_pos (by simp)]
    · intro hm
      rw [hsave]
      exact balanceOtherKRs_split oid kid weight o1 o2
        { objective with keyResults :=
          (k1 ++ applyKRForm title target startDate targetDate weight status
            confidence lastCheckin evidence comments kr :: k2) }
        k1 k2
        (applyKRForm title target startDate targetDate weight status
          confidence lastCheckin evidence comments kr)
        ho1 (by simp [hoid]) rfl hk1 hk2 (by simp [applyKRForm, hkid]) hm

/-! ## C4 — the 0 ≤ current ≤ target invariant -/

theorem mem_updateFirst {α : Type} (p : α → Bool) (f : α → α) :
    ∀ (l : List α) (x : α), x ∈ updateFirst p f l →
      x ∈ l ∨ ∃ a ∈ l, x = f a := by
  intro l
  induction l with
  | nil => intro x hx; cases hx
  | cons y ys ih =>
      intro x hx
      simp only [updateFirst] at hx
      by_cases hy : p y
      · rw [if_pos hy] at hx
        rcases List.mem_cons.mp hx with rfl | hx
        · exact Or.inr ⟨y, by simp, rfl⟩
        · exact Or.inl (by simp [hx])
      · rw [if_neg hy] at hx
        rcases List.mem_cons.mp hx with rfl | hx
        · exact Or.inl (by simp)
        · rcases ih x hx with h | ⟨a, ha, rfl⟩
          · exact Or.inl (by simp [h])
          · exact Or.inr ⟨a, by simp [ha], rfl⟩

theorem mem_assignIdxFrom {α : Type} (f : Nat → α → α) :
    ∀ (l : List α) (i : Nat) (x : α), x ∈ assignIdxFrom f i l →
      ∃ j, ∃ a ∈ l, x = f j a := by
  intro l
  induction l with
  | nil => intro i x hx; cases hx
  | cons y ys ih =>
      intro i x hx
      simp only [assignIdxFrom] at hx
      rcases List.mem_cons.mp hx with rfl | hx
      · exact ⟨i, y, by simp, rfl⟩
      · obtain ⟨j, a, ha, rfl⟩ := ih (i + 1) x hx
        exact ⟨j, a, by simp [ha], rfl⟩

theorem mem_assignOtherIdxFrom {α : Type} (isEd : α → Bool) (f : Nat → α → α) :
    ∀ (l : List α) (i : Nat) (x : α), x ∈ assignOtherIdxFrom isEd f i l →
      x ∈ l ∨ ∃ j, ∃ a ∈ l, x = f j a := by
  intro l
  induction l with
  | nil => intro i x hx; cases hx
  | cons y ys ih =>
      intro i x hx
      simp only [assignOtherIdxFrom] at hx
      by_cases hy : isEd y
      · rw [if_pos hy] at hx
        rcases List.mem_cons.mp hx with rfl | hx
        · exact Or.inl (by simp)
        · rcases ih i x hx with h | ⟨j, a, ha, rfl⟩
          · exact Or.inl (by simp [h])
          · exact Or.inr ⟨j, a, by simp [ha], rfl⟩
      · rw [if_neg hy] at hx
        rcases List.mem_cons.mp hx with rfl | hx
        · exact Or.inr ⟨i, y, by simp, rfl⟩
        · rcases ih (i + 1) x hx with h | ⟨j, a, ha, rfl⟩
          · exact Or.inl (by simp [h])
          · exact Or.inr ⟨j, a, by simp [ha], rfl⟩

theorem inv_autoBalanceKRWeights
    (objs : List Objective) (oid : String)
    (hinv : ∀ obj ∈ objs, ∀ kr ∈ obj.keyResults,
      0 ≤ kr.current ∧ kr.current ≤ kr.target) :
    ∀ obj ∈ autoBalanceKRWeights objs oid, ∀ kr ∈ obj.keyResults,
      0 ≤ kr.current ∧ kr.current ≤ kr.target := by
  cases hfo : objs.find? (fun o => o.id = oid) with
  | none =>
      simp only [autoBalanceKRWeights, hfo]
      exact hinv
  | some obj0 =>
      by_cases h0 : obj0.keyResults.length = 0
      · simp only [autoBalanceKRWeights, hfo, if_pos h0]
        exact hinv
      · simp only [autoBalanceKRWeights, hfo, if_neg h0]
        intro obj hobj kr hkr
        rcases mem_updateFirst _ _ objs obj hobj with h | ⟨a, ha, rfl⟩
        · exact hinv obj h kr hkr
        · simp only at hkr
          obtain ⟨j, k, hk, rfl⟩ := mem_assignIdxFrom _ a.keyResults 0 kr hkr
          exact hinv a ha k hk

theorem inv_balanceOtherKRs
    (objs : List Objective) (oid kid : String) (w : ℤ)
    (hinv : ∀ obj ∈ objs, ∀ kr ∈ obj.keyResults,
      0 ≤ kr.current ∧ kr.current ≤ kr.target) :
    ∀ obj ∈ balanceOtherKRs objs oid kid w, ∀ kr ∈ obj.keyResults,
      0 ≤ kr.current ∧ kr.current ≤ kr.target := by
  cases hfo : objs.find? (fun o => o.id = oid) with
  | none =>
      simp only [balanceOtherKRs, hfo]
      exact hinv
  | some obj0 =>
      by_cases h0 : obj0.keyResults.length ≤ 1
      · simp only [balanceOtherKRs, hfo, if_pos h0]
        exact hinv
      · by_cases h1 : (obj0.keyResults.filter (fun kr => kr.id ≠ kid)).length = 0
        · simp only [balanceOtherKRs, hfo, if_neg h0, if_pos h1]
          exact hinv
        · simp only [balanceOtherKRs, hfo, if_neg h0, if_neg h1]
          intro obj hobj kr hkr
          rcases mem_updateFirst _ _ objs obj hobj with h | ⟨a, ha, rfl⟩
          · exact hinv obj h kr hkr
          · simp only at hkr
            rcases mem_assignOtherIdxFrom _ _ a.keyResults 0 kr hkr with
              h | ⟨j, k, hk, rfl⟩
            · exact hinv a ha kr h
            · exact hinv a ha k hk

/-- C4 counterexample: the mutators do not validate the parsed target,
so adding a key result with target `-5` produces `current = 0 > target`,
violating `0 ≤ current ≤ target` right after the add operation. -/
theorem c4_counterexample_negative_target :
    ((saveKeyResult { objectives := [mkObj "a" 0 []], history := [] }
        "a" "KR x" (-5) "" "" 100 "on-track" "Medium" "" "" "" none
        "k1" "e1" "t1" "s1" "t2" "d").objectives.map
          (fun o => o.keyResults.map (fun k => (k.current, k.target))))
      = [[((0 : ℚ), (-5 : ℚ))]] ∧ ¬ ((0 : ℚ) ≤ -5) :=
  ⟨by with_unfolding_all rfl, by decide⟩

/-- C4 amended: provided the invariant held before and the target
supplied to an add/edit is nonnegative (targets are intended positive),
every mutator (`saveKeyResult` add and edit, `updateKR`
increment/decrement) leaves every key result with
`0 ≤ current ≤ target`. -/
theorem c4_amended_current_in_range :
    ∀ (d : AppData) (oid title : String) (target : ℤ)
      (startDate targetDate : String) (weight : ℤ)
      (status confidence lastCheckin evidence comments : String)
      (editId : Option String)
      (newKrId entryId entryTs snapId snapTs today : String)
      (kid : String) (delta : ℚ) (e2 t2 s2 ts2 : String),
      (∀ obj ∈ d.objectives, ∀ kr ∈ obj.keyResults,
        0 ≤ kr.current ∧ kr.current ≤ kr.target) →
      ((0 ≤ target →
          ∀ obj ∈ (saveKeyResult d oid title target startDate targetDate
              weight status confidence lastCheckin evidence comments editId
              newKrId entryId entryTs snapId snapTs today).objectives,
            ∀ kr ∈ obj.keyResults,
              0 ≤ kr.current ∧ kr.current ≤ kr.target) ∧
       (∀ obj ∈ (updateKR d oid kid delta e2 t2 s2 ts2).objectives,
          ∀ kr ∈ obj.keyResults,
            0 ≤ kr.current ∧ kr.current ≤ kr.target)) := by
  intro d oid title target startDate targetDate weight status confidence
    lastCheckin evidence comments editId newKrId entryId entryTs snapId
    snapTs today kid delta e2 t2 s2 ts2 hinv
  obtain ⟨objs, hist⟩ := d
  have hinv' : ∀ obj ∈ objs, ∀ kr ∈ obj.keyResults,
      0 ≤ kr.current ∧ kr.current ≤ kr.target := hinv
  constructor
  · intro htgt
    have htgtQ : (0 : ℚ) ≤ (target : ℚ) := by exact_mod_cast htgt
    cases hfo : objs.find? (fun o => o.id = oid) with
    | none =>
        simp only [saveKeyResult, hfo]
        exact hinv'
    | some objective =>
        cases editId with
        | none =>
            simp only [saveKeyResult, hfo, recordProgressSnapshot_objectives]
            apply inv_autoBalanceKRWeights
            intro obj hobj kr hkr
            rcases mem_updateFirst _ _ objs obj hobj with h | ⟨a, ha, rfl⟩
            · exact hinv' obj h kr hkr
            · simp only at hkr
              rcases List.mem_append.mp hkr with h | h
              · exact hinv' a ha kr h
              · rw [List.mem_singleton.mp h]
                exact ⟨le_refl 0, htgtQ⟩
        | some eid =>
            cases hfk : objective.keyResults.find? (fun k => k.id = eid) with
            | none =>
                simp only [saveKeyResult, hfo, hfk,
                  recordProgressSnapshot_objectives]
                exact hinv'
            | some kr0 =>
                simp only [saveKeyResult, hfo, hfk,
                  recordProgressSnapshot_objectives]
                have hobjs1 : ∀ obj ∈ updateFirst (fun o => o.id = oid)
                    (fun o => { o with keyResults :=
                      (updateFirst (fun k => k.id = eid)
                        (applyKRForm title target startDate targetDate weight
                          status confidence lastCheckin evidence comments)
                        o.keyResults) }) objs,
                    ∀ kr ∈ obj.keyResults,
                      0 ≤ kr.current ∧ kr.current ≤ kr.target := by
                  intro obj hobj kr hkr
                  rcases mem_updateFirst _ _ objs obj hobj with h | ⟨a, ha, rfl⟩
                  · exact hinv' obj h kr hkr
                  · simp only at hkr
                    rcases mem_updateFirst _ _ a.keyResults kr hkr with
                      h | ⟨k, hk, rfl⟩
                    · exact hinv' a ha kr h
                    · obtain ⟨g0, g1⟩ := hinv' a ha k hk
                      exact ⟨le_min g0 htgtQ, min_le_right _ _⟩
                split
                · exact inv_balanceOtherKRs _ _ _ _ hobjs1
                · exact hobjs1
  · cases hfo : objs.find? (fun o => o.id = oid) with
    | none =>
        simp only [updateKR, hfo]
        exact hinv'
    | some objective =>
        cases hfk : objective.keyResults.find? (fun k => k.id = kid) with
        | none =>
            simp only [updateKR, hfo, hfk]
            exact hinv'
        | some kr0 =>
            simp only [updateKR, hfo, hfk, recordProgressSnapshot_objectives]
            obtain ⟨l1, l2, hsplit, hl1, hpa⟩ := find?_split _ _ _ hfo
            obtain ⟨k1, k2, hksplit, hk1, hpk⟩ := find?_split _ _ _ hfk
            subst hsplit
            rw [updateFirst_append_of_first _ _ l1 objective l2 hl1 hpa]
            have hinner : updateFirst (fun k => k.id = kid)
                (fun k => { k with current :=
                  (max 0 (min kr0.target (kr0.current + delta))) })
                objective.keyResults
                = k1 ++ { kr0 with current :=
                    (max 0 (min kr0.target (kr0.current + delta))) } :: k2 := by
              rw [hksplit]
              exact updateFirst_append_of_first _ _ k1 kr0 k2 hk1 hpk
            intro obj hobj
            rcases List.mem_append.mp hobj with h | hcons
            · exact hinv' obj (List.mem_append.mpr (Or.inl h))
            · rcases List.mem_cons.mp hcons with rfl | h
              · intro kr hkr
                simp only [hinner] at hkr
                rcases List.mem_append.mp hkr with h | hc
                · exact hinv' objective (by simp) kr
                    (by rw [hksplit]; exact List.mem_append.mpr (Or.inl h))
                · rcases List.mem_cons.mp hc with rfl | h
                  · obtain ⟨g0, g1⟩ := hinv' objective (by simp) kr0
                      (by rw [hksplit]; simp)
                    refine ⟨le_max_left 0 _, ?_⟩
                    exact max_le (le_trans g0 g1) (min_le_left _ _)
                  · exact hinv' objective (by simp) kr
                      (by rw [hksplit]; simp [h])
              · exact hinv' obj (by simp [h])

set_option maxRecDepth 8000 in
/-- Witness for C4's amended statement: decrementing a key result at
`current = 5, target = 10` by 7 clamps to 0, which stays in range. -/
theorem c4_amended_current_in_range_witness :
    (0 : ℚ) ≤ (mkKR "k" 0 10 100).current ∧
    (mkKR "k" 0 10 100).current ≤ (mkKR "k" 0 10 100).target :=
  (c4_amended_current_in_range
      { objectives := [mkObj "a" 0 [mkKR "k" 5 10 100]], history := [] }
      "a" "t" 10 "" "" 100 "on-track" "Medium" "" "" "" none
      "n" "e" "te" "s" "ts" "d" "k" (-7) "e2" "t2" "s2" "ts2"
      (by decide)).2
    (mkObj "a" 0 [mkKR "k" 0 10 100]) (by with_unfolding_all decide)
    (mkKR "k" 0 10 100) (by decide)

/-- Witness for C2 at the claim's own example: manually setting one of
three objectives to weight 50 leaves the other two at 25 and 25. -/
theorem c2_manual_set_rebalance_witness :
    (saveObjective
        { objectives := [mkObj "a" 34 [], mkObj "b" 33 [], mkObj "c" 33 []],
          history := [] }
        { editId := some "a", group := "Personal", year := 2025,
          quarter := "1", title := "Objective a", purpose := "",
          startDate := "2025-01-01", targetDate := "2025-03-31",
          weight := 50, lastCheckin := "" }
        "n" "e" "te" "s" "ts" "d").objectives.map (fun o => o.weight)
      = [50, 25, 25] := by
  have h := (c2_manual_set_rebalance.1
      { objectives := [mkObj "a" 34 [], mkObj "b" 33 [], mkObj "c" 33 []],
        history := [] }
      { editId := some "a", group := "Personal", year := 2025,
        quarter := "1", title := "Objective a", purpose := "",
        startDate := "2025-01-01", targetDate := "2025-03-31",
        weight := 50, lastCheckin := "" }
      "a" [] [mkObj "b" 33 [], mkObj "c" 33 []] (mkObj "a" 34 [])
      "n" "e" "te" "s" "ts" "d" rfl rfl rfl (by decide) (by decide))
  rw [h.2.2 (by decide)]
  decide
